import Mathlib

/-!
Verification of `survey_response_upload.py`: a CSV survey-data loader with
interactive identifier-column inference, and a per-participant
delete-then-upload loop against the Open Humans file-storage API.

Modelling conventions:
* A CSV file (after `csv.DictReader` parsing) is a header `fieldnames` list
  plus a list of rows; each row is an association list from column name to
  string value, in column order.
* Python `dict` is modelled as an association list with insert-or-overwrite
  (`dinsert`) that keeps the original position of an overwritten key and
  appends new keys, matching Python 3.7+ insertion-order semantics.
* The interactive operator is an oracle `answers : String → String` giving
  the response typed at the prompt for a given column name.
* The `csv.Sniffer().has_header` heuristic (Python stdlib, external to this
  repository) is an oracle boolean `hasHeader`.
* The remote Open Humans API is an oracle: `project_data` is the per-member
  file listing fetched by `ohapi.OHProject`, and `status : String → Nat`
  gives the HTTP status code returned for the upload of a given member ID.
* Network requests and log lines are reified as an `Event` trace.
-/

/-- A parsed CSV data row: association list from column name to value,
as produced by `csv.DictReader` (one pair per header column, in order). -/
abbrev Row := List (String × String)

/-- A Python `dict` keyed by strings, as an insertion-ordered association list. -/
abbrev Dict (α : Type) := List (String × α)

/-- Value of column `k` in row `r` (`row[fieldname]` in the source; the
fieldname always comes from the header, so the key is present in well-formed
input — a missing key defaults to `""`, which fails the ID pattern). -/
def rowVal (r : Row) (k : String) : String :=
  ((r.find? (fun p => p.1 = k)).map Prod.snd).getD ""

/-- Python `dict` insert: overwrite in place if the key is present, else
append at the end (`loaded_data[key] = row`). -/
def dinsert {α : Type} (d : Dict α) (k : String) (v : α) : Dict α :=
  match d with
  | [] => [(k, v)]
  | (k2, v2) :: rest =>
    if k2 = k then (k, v) :: rest else (k2, v2) :: dinsert rest k v

/-- Python `dict` lookup (`d[key]`, as an `Option`). -/
def dget? {α : Type} (d : Dict α) (k : String) : Option α :=
  match d with
  | [] => none
  | (k2, v) :: rest => if k2 = k then some v else dget? rest k

/-- Python `key in dict`. -/
def dcontains {α : Type} (d : Dict α) (k : String) : Bool :=
  d.any (fun p => p.1 = k)

/-- Keys of a dict, in iteration order (`for k in d`). -/
def dkeys {α : Type} (d : Dict α) : List String := d.map Prod.fst

/-- `re.match('^[0-9]{8}$', s)` succeeds: `s` is exactly eight ASCII digits
(Python `$` also matches just before one trailing newline). -/
def re_match_id (s : String) : Bool :=
  (s.data.length = 8 && s.data.all Char.isDigit) ||
  (s.data.length = 9 && s.data.getLast? = some '\n' &&
    (s.data.take 8).all Char.isDigit)

/-- The parsed CSV input: header fieldnames and data rows. -/
structure CsvData where
  fieldnames : List String
  rows : List Row

/-- The distinct fatal exceptions the loader can raise.
`noHeader` models `Exception("CSV data doesn't appear to have a header!")`;
`stopIteration` models the uncaught `StopIteration` raised by `next(reader)`
on a header-only file; `unableToDetermine` models
`Exception('Unable to determine column with project member ID.')`;
`malformedRow r` models
`Exception('Row {} appears to have malformed project member ID!'.format(row))`,
which names the offending row. -/
inductive LoadError where
  | noHeader
  | stopIteration
  | unableToDetermine
  | malformedRow (row : Row)
deriving DecidableEq

deriving instance DecidableEq for Except

/-- Python `str.upper()` (character-wise uppercasing; ASCII is what matters
for the comparison against `'Y'`/`'YES'`). -/
def pyUpper (s : String) : String := String.mk (s.data.map Char.toUpper)

/-- `response.upper() in ['Y', 'YES']`. -/
def isYes (response : String) : Bool :=
  pyUpper response = "Y" || pyUpper response = "YES"

/-- The candidate-scanning loop of `get_projmemid_fieldname`: walk the header
fieldnames in order; for each whose first-row value matches the ID pattern,
prompt the operator; stop at the first affirmative answer. Returns the list
of prompted column names (in prompt order) and the chosen column, if any. -/
def scan_columns (answers : String → String) (firstrow : Row) :
    List String → List String × Option String
  | [] => ([], none)
  | f :: fs =>
    if re_match_id (rowVal firstrow f) then
      if isYes (answers f) then ([f], some f)
      else
        let rest := scan_columns answers firstrow fs
        (f :: rest.1, rest.2)
    else scan_columns answers firstrow fs

/-- `get_projmemid_fieldname`: read the first data row (raising
`StopIteration` if there is none), scan the columns for ID candidates with
operator confirmation, then run `if id_fieldname:` — a Python TRUTHINESS
test, so both an unconfirmed scan (`id_fieldname is None`) and a confirmed
column whose name is the empty string (falsy) fall through to the
`unableToDetermine` error. Returns the prompts issued alongside the
result. -/
def get_projmemid_fieldname (d : CsvData) (answers : String → String) :
    List String × Except LoadError String :=
  match d.rows with
  | [] => ([], .error .stopIteration)
  | firstrow :: _ =>
    match scan_columns answers firstrow d.fieldnames with
    | (prompts, some f) =>
      if f = "" then (prompts, .error .unableToDetermine) else (prompts, .ok f)
    | (prompts, none) => (prompts, .error .unableToDetermine)

/-- The row-loading loop of `load_survey_data`: for each row in file order,
insert it keyed by its ID-column value if that value matches the pattern,
otherwise raise `malformedRow` (aborting with no mapping). -/
def load_rows (idf : String) : List Row → Dict Row → Except LoadError (Dict Row)
  | [], acc => .ok acc
  | r :: rs, acc =>
    if re_match_id (rowVal r idf) then
      load_rows idf rs (dinsert acc (rowVal r idf) r)
    else .error (.malformedRow r)

/-- `load_survey_data`: check the header sniff, infer the ID column, then
load every data row into a dict keyed by its ID value. -/
def load_survey_data (hasHeader : Bool) (d : CsvData)
    (answers : String → String) : Except LoadError (Dict Row) :=
  if !hasHeader then .error .noHeader
  else
    match (get_projmemid_fieldname d answers).2 with
    | .error e => .error e
    | .ok idf => load_rows idf d.rows []

/-- One entry of a member's file listing, as consumed by the upload loop
(only the `basename` and `source` fields are read). -/
structure FileEntry where
  basename : String
  source : String
deriving DecidableEq

/-- One member's entry in `proj.project_data`: the file listing (`data`)
and the member's shared data sources (`sources_shared`). -/
structure MemberData where
  data : List FileEntry
  sources_shared : List String
deriving DecidableEq

/-- The run configuration: the command-line options consumed by the loop
body of `surv_upload`. -/
structure Config where
  filename : String
  description : String
  tags : String
deriving DecidableEq

/-- Observable actions of `surv_upload`, in program order: log lines and
remote HTTP requests. `listingFetch` is the project-data fetch performed by
the `ohapi.OHProject` constructor; `deleteReq` posts to the delete endpoint
with form fields `project_member_id` and `file_basename`; `uploadReq` posts
to the upload endpoint with the named file's body and the form fields
`project_member_id` and `metadata`. -/
inductive Event where
  | logInfo (msg : String)
  | logWarning (msg : String)
  | listingFetch
  | deleteReq (projmemid : String) (file_basename : String)
  | uploadReq (projmemid : String) (filename : String) (body : String)
      (metadata : String)
deriving DecidableEq

/-- Python `str.split(sep)` for a one-character separator, over character
lists: splits at every separator occurrence, keeping empty pieces (so the
result for the empty string is one empty piece, as in Python). -/
def pySplitCh (sep : Char) : List Char → List (List Char)
  | [] => [[]]
  | c :: cs =>
    let r := pySplitCh sep cs
    if c = sep then [] :: r
    else
      match r with
      | [] => [[c]]
      | w :: ws => (c :: w) :: ws

/-- `tags.split(' ')`: Python single-space split of a string. -/
def pySplit (s : String) (sep : Char) : List String :=
  (pySplitCh sep s.data).map String.mk

/-- JSON escaping of one character, modelling `json.dumps` on the string
values this program serializes (quote, backslash and common control
characters). -/
def jsonEscapeChar (c : Char) : String :=
  if c = '\\' then "\\\\"
  else if c = '\x22' then "\\\x22"
  else if c = '\n' then "\\n"
  else if c = '\t' then "\\t"
  else if c = '\r' then "\\r"
  else String.singleton c

/-- JSON serialization of a string value. -/
def jsonStr (s : String) : String :=
  "\x22" ++ String.join (s.data.map jsonEscapeChar) ++ "\x22"

/-- `json.dumps(row)` for a `DictReader` row: a JSON object in the row's
key order, with the default `', '` and `': '` separators. -/
def jsonDumps (r : Row) : String :=
  "\x7b" ++
    String.intercalate ", " (r.map (fun p => jsonStr p.1 ++ ": " ++ jsonStr p.2))
    ++ "\x7d"

/-- `json.dumps(metadata)` for the metadata dict
`{"tags": tags.split(' '), "description": description}`. -/
def jsonDumpsMeta (tags : List String) (description : String) : String :=
  "\x7b\x22tags\x22: [" ++ String.intercalate ", " (tags.map jsonStr) ++
    "], \x22description\x22: " ++ jsonStr description ++ "\x7d"

/-- The dict comprehension
`{f['basename']: f for f in member_data['data'] if f['source'] not in member_data['sources_shared']}`:
the member's own (non-shared-source) files keyed by basename. -/
def curr_project_data_of (member_data : MemberData) : Dict FileEntry :=
  (member_data.data.filter
      (fun f => f.source ∉ member_data.sources_shared)).foldl
    (fun d f => dinsert d f.basename f) []

/-- One iteration of the upload loop of `surv_upload` for `projmemid`:
skip with a log line if the ID is not in the project listing; otherwise
delete a pre-existing file of the configured name (if the member's own
files contain one), upload the member's row as JSON, and log the outcome
according to the HTTP status code (201 = success). -/
def processParticipant (cfg : Config) (project_data : Dict MemberData)
    (loaded_data : Dict Row) (status : String → Nat) (projmemid : String) :
    List Event :=
  match dget? project_data projmemid with
  | none =>
    [.logInfo ("Skipping \x27" ++ projmemid ++ "\x27, invalid member ID.")]
  | some member_data =>
    let curr_project_data := curr_project_data_of member_data
    let delEvents : List Event :=
      if dcontains curr_project_data cfg.filename then
        [.logInfo ("Deleting current " ++ cfg.filename ++ " for " ++ projmemid),
         .deleteReq projmemid cfg.filename]
      else []
    let row := (dget? loaded_data projmemid).getD []
    delEvents ++
      [.logInfo ("Uploading " ++ cfg.filename ++ " for " ++ projmemid),
       .uploadReq projmemid cfg.filename (jsonDumps row)
         (jsonDumpsMeta (pySplit cfg.tags ' ') cfg.description),
       if status projmemid = 201 then
         .logInfo ("Upload of " ++ cfg.filename ++ " for " ++ projmemid ++
           " complete.")
       else
         .logWarning ("Upload error of " ++ cfg.filename ++ " for " ++
           projmemid ++ "!")]

/-- Outcome of a `surv_upload` run: either a fatal load-time exception
(raised before any network activity), or normal completion with the trace
of observable events. -/
inductive RunResult where
  | fatal (e : LoadError)
  | completed (events : List Event)
deriving DecidableEq

/-- The whole `surv_upload` command: load the survey data (any load error
aborts the run having produced no events), fetch the project listing, then
run the upload loop over the loaded dict's keys in insertion order. -/
def surv_upload (cfg : Config) (hasHeader : Bool) (d : CsvData)
    (answers : String → String) (project_data : Dict MemberData)
    (status : String → Nat) : RunResult :=
  match load_survey_data hasHeader d answers with
  | .error e => .fatal e
  | .ok loaded_data =>
    .completed (Event.listingFetch ::
      (dkeys loaded_data).flatMap
        (processParticipant cfg project_data loaded_data status))

/-- Events observable from a run (a fatal load produced none). -/
def runEvents : RunResult → List Event
  | .fatal _ => []
  | .completed events => events

/-- Whether an event is a remote API request. -/
def isNetworkEvent : Event → Bool
  | .listingFetch => true
  | .deleteReq _ _ => true
  | .uploadReq _ _ _ _ => true
  | _ => false

/-- Whether an event is an upload request. -/
def isUploadReq : Event → Bool
  | .uploadReq _ _ _ _ => true
  | _ => false

/-- The project member a network write is addressed to (`none` for log
lines and the listing fetch). -/
def netTarget : Event → Option String
  | .deleteReq p _ => some p
  | .uploadReq p _ _ _ => some p
  | _ => none

/-- The row stored under identifier `k` after the whole file is loaded:
the LAST row in file order whose ID-column value is `k` (specification of
last-write-wins). -/
def lastRowWith (idf k : String) : List Row → Option Row
  | [] => none
  | r :: rs =>
    match lastRowWith idf k rs with
    | some r2 => some r2
    | none => if rowVal r idf = k then some r else none

/-- The ID-candidate columns: header fieldnames, in column order, whose
value in the first data row matches the 8-digit identifier pattern
(formalizes the spec's candidate-column description). -/
def candidate_cols (fieldnames : List String) (firstrow : Row) : List String :=
  fieldnames.filter (fun f => re_match_id (rowVal firstrow f))

/-- Specification of the prompting behaviour: the columns prompted are the
candidates up to and including the first confirmed one (all candidates when
none is confirmed). -/
def spec_promptedCols (confirmed : String → Bool) : List String → List String
  | [] => []
  | f :: fs =>
    if confirmed f then [f] else f :: spec_promptedCols confirmed fs

/-- Fixture: a survey row for member 12345678. -/
def wRow : Row := [("id", "12345678"), ("response", "yes")]

/-- Fixture: a survey row for member 87654321. -/
def wRow2 : Row := [("id", "87654321"), ("response", "no")]

/-- Fixture: a one-row CSV. -/
def wCsv : CsvData := ⟨["id", "response"], [wRow]⟩

/-- Fixture: a two-row CSV with two distinct member IDs. -/
def wCsv2 : CsvData := ⟨["id", "response"], [wRow, wRow2]⟩

/-- Fixture: the default run configuration. -/
def wCfg : Config :=
  ⟨"survey-data.json", "Project survey data.", "json survey"⟩

/-- Fixture: a member listing holding a project-owned file named
`survey-data.json` and one shared-source file. -/
def wMember : MemberData :=
  ⟨[⟨"survey-data.json", "direct-sharing-1"⟩, ⟨"shared.json", "other-src"⟩],
   ["other-src"]⟩

/-- Fixture: remote project data knowing only member 12345678. -/
def wProj : Dict MemberData := [("12345678", wMember)]

/-- Fixture: the dataset loaded from `wCsv`. -/
def wLoaded : Dict Row := [("12345678", wRow)]

/-- Fixture: the dataset loaded from `wCsv2`. -/
def wLoaded2 : Dict Row := [("12345678", wRow), ("87654321", wRow2)]

theorem dget?_dinsert {α : Type} (d : Dict α) (k k2 : String) (v : α) :
    dget? (dinsert d k v) k2 = if k2 = k then some v else dget? d k2 := by
  induction d with
  | nil =>
    simp only [dinsert, dget?]
    by_cases h : k = k2
    · simp [h]
    · rw [if_neg h, if_neg (fun h2 => h h2.symm)]
  | cons p rest ih =>
    obtain ⟨a, b⟩ := p
    simp only [dinsert]
    by_cases hak : a = k
    · rw [if_pos hak]
      simp only [dget?]
      by_cases hk2 : k2 = k
      · rw [if_pos hk2.symm, if_pos hk2]
      · rw [if_neg (fun h2 : k = k2 => hk2 h2.symm), if_neg hk2,
            if_neg (fun h2 : a = k2 => hk2 (h2.symm.trans hak))]
    · rw [if_neg hak]
      simp only [dget?]
      by_cases hak2 : a = k2
      · subst hak2
        rw [if_pos rfl, if_neg (fun h2 : a = k => hak h2), if_pos rfl]
      · rw [if_neg hak2, ih, if_neg hak2]

theorem mem_dinsert {α : Type} (d : Dict α) (k : String) (v : α)
    (p : String × α) (h : p ∈ dinsert d k v) : p = (k, v) ∨ p ∈ d := by
  induction d with
  | nil => simp [dinsert] at h; simp [h]
  | cons q rest ih =>
    obtain ⟨a, b⟩ := q
    simp only [dinsert] at h
    by_cases hak : a = k
    · rw [if_pos hak] at h
      rcases List.mem_cons.mp h with h1 | h1
      · exact Or.inl h1
      · exact Or.inr (List.mem_cons_of_mem _ h1)
    · rw [if_neg hak] at h
      rcases List.mem_cons.mp h with h1 | h1
      · exact Or.inr (List.mem_cons.mpr (Or.inl h1))
      · rcases ih h1 with h2 | h2
        · exact Or.inl h2
        · exact Or.inr (List.mem_cons_of_mem _ h2)

theorem dcontains_iff {α : Type} (d : Dict α) (k : String) :
    dcontains d k = true ↔ k ∈ dkeys d := by
  simp only [dcontains, dkeys, List.any_eq_true, List.mem_map,
    decide_eq_true_eq]

theorem dkeys_dinsert {α : Type} (d : Dict α) (k : String) (v : α) :
    dkeys (dinsert d k v) =
      if k ∈ dkeys d then dkeys d else dkeys d ++ [k] := by
  induction d with
  | nil => simp [dinsert, dkeys]
  | cons p rest ih =>
    obtain ⟨a, b⟩ := p
    simp only [dinsert]
    by_cases hak : a = k
    · subst hak
      simp [dkeys]
    · rw [if_neg hak]
      simp only [dkeys, List.map_cons] at ih ⊢
      rw [ih]
      by_cases hmem : k ∈ List.map Prod.fst rest
      · simp [hmem, hak, Ne.symm hak]
      · simp [hmem, hak, Ne.symm hak]

theorem nodup_dkeys_dinsert {α : Type} (d : Dict α) (k : String) (v : α)
    (h : (dkeys d).Nodup) : (dkeys (dinsert d k v)).Nodup := by
  rw [dkeys_dinsert]
  by_cases hmem : k ∈ dkeys d
  · simpa [hmem] using h
  · simp only [hmem, if_false]
    exact List.Nodup.append h (List.nodup_singleton k)
      (fun a ha hak2 => hmem ((List.mem_singleton.mp hak2) ▸ ha))

theorem load_rows_ok (idf : String) (rows : List Row) (acc : Dict Row)
    (h : ∀ r ∈ rows, re_match_id (rowVal r idf) = true) :
    load_rows idf rows acc =
      .ok (rows.foldl (fun dd r => dinsert dd (rowVal r idf) r) acc) := by
  induction rows generalizing acc with
  | nil => simp [load_rows]
  | cons r rs ih =>
    have hr := h r (List.mem_cons_self r rs)
    simp only [load_rows, hr, if_true, List.foldl_cons]
    exact ih _ (fun x hx => h x (List.mem_cons_of_mem _ hx))

theorem load_rows_error (idf : String) (rows : List Row) (acc : Dict Row)
    (bad : Row)
    (h : rows.find? (fun r => !re_match_id (rowVal r idf)) = some bad) :
    load_rows idf rows acc = .error (.malformedRow bad) := by
  induction rows generalizing acc with
  | nil => simp at h
  | cons r rs ih =>
    by_cases hr : re_match_id (rowVal r idf) = true
    · rw [List.find?_cons_of_neg _ (by simp [hr])] at h
      simp only [load_rows, hr, if_true]
      exact ih _ h
    · rw [List.find?_cons_of_pos _ (by simp [hr])] at h
      simp only [load_rows, if_neg hr]
      rw [Option.some.inj h]

theorem dget?_load_foldl (idf k : String) (rows : List Row) (acc : Dict Row) :
    dget? (rows.foldl (fun dd r => dinsert dd (rowVal r idf) r) acc) k =
      match lastRowWith idf k rows with
      | some r => some r
      | none => dget? acc k := by
  induction rows generalizing acc with
  | nil => simp [lastRowWith]
  | cons r rs ih =>
    simp only [List.foldl_cons, lastRowWith]
    rw [ih]
    cases h : lastRowWith idf k rs with
    | some r2 => simp
    | none =>
      simp only []
      rw [dget?_dinsert]
      by_cases hk : rowVal r idf = k
      · rw [if_pos hk, if_pos hk.symm]
      · rw [if_neg hk, if_neg (fun h2 => hk h2.symm)]

theorem nodup_load_foldl (idf : String) (rows : List Row) (acc : Dict Row)
    (h : (dkeys acc).Nodup) :
    (dkeys (rows.foldl (fun dd r => dinsert dd (rowVal r idf) r) acc)).Nodup := by
  induction rows generalizing acc with
  | nil => simpa using h
  | cons r rs ih =>
    simp only [List.foldl_cons]
    exact ih _ (nodup_dkeys_dinsert _ _ _ h)

theorem scan_columns_eq (answers : String → String) (firstrow : Row)
    (fl : List String) :
    scan_columns answers firstrow fl =
      (spec_promptedCols (fun f => isYes (answers f))
         (candidate_cols fl firstrow),
       (candidate_cols fl firstrow).find? (fun f => isYes (answers f))) := by
  induction fl with
  | nil => simp [scan_columns, spec_promptedCols, candidate_cols]
  | cons f fs ih =>
    simp only [scan_columns, candidate_cols, List.filter_cons] at ih ⊢
    by_cases hm : re_match_id (rowVal firstrow f) = true
    · simp only [hm, if_true]
      by_cases hy : isYes (answers f) = true
      · have hfind : List.find? (fun g => isYes (answers g))
            (f :: List.filter (fun g => re_match_id (rowVal firstrow g)) fs) =
            some f := List.find?_cons_of_pos _ hy
        simp [spec_promptedCols, hy, hfind]
      · have hfind : List.find? (fun g => isYes (answers g))
            (f :: List.filter (fun g => re_match_id (rowVal firstrow g)) fs) =
            List.find? (fun g => isYes (answers g))
              (List.filter (fun g => re_match_id (rowVal firstrow g)) fs) :=
          List.find?_cons_of_neg _ (by simp [hy])
        rw [if_neg hy, ih, hfind]
        simp [spec_promptedCols, hy]
    · simp only [hm, if_false]
      exact ih

theorem load_survey_data_ok_idf (d : CsvData) (answers : String → String)
    (idf : String)
    (hidf : (get_projmemid_fieldname d answers).2 = .ok idf) :
    load_survey_data true d answers = load_rows idf d.rows [] := by
  simp only [load_survey_data, Bool.not_true, Bool.false_eq_true, if_false,
    hidf]

theorem load_rows_inv (idf : String) (rows : List Row) (acc m : Dict Row)
    (hacc : ∀ p ∈ acc, re_match_id p.1 = true ∧ rowVal p.2 idf = p.1)
    (h : load_rows idf rows acc = .ok m) :
    ∀ p ∈ m, re_match_id p.1 = true ∧ rowVal p.2 idf = p.1 := by
  induction rows generalizing acc with
  | nil =>
    simp only [load_rows, Except.ok.injEq] at h
    exact h ▸ hacc
  | cons r rs ih =>
    simp only [load_rows] at h
    by_cases hr : re_match_id (rowVal r idf) = true
    · rw [if_pos hr] at h
      refine ih _ ?_ h
      intro p hp
      rcases mem_dinsert _ _ _ _ hp with h1 | h1
      · subst h1
        exact ⟨hr, rfl⟩
      · exact hacc p h1
    · rw [if_neg hr] at h
      exact absurd h (by simp)

/-- C1: if the header sniff passes and a column `idf` was confirmed as the
identifier column, then whenever some row's value in that column fails the
8-digit pattern, `load_survey_data` raises the malformed-row error naming a
malformed row, and never returns a mapping — the load is all-or-nothing,
regardless of where the bad row sits in the file. -/
theorem claim_C1_malformed_row_aborts (d : CsvData)
    (answers : String → String) (idf : String)
    (hidf : (get_projmemid_fieldname d answers).2 = .ok idf)
    (hbad : ∃ r ∈ d.rows, re_match_id (rowVal r idf) = false) :
    ∃ bad ∈ d.rows, re_match_id (rowVal bad idf) = false ∧
      load_survey_data true d answers = .error (.malformedRow bad) ∧
      ∀ m, load_survey_data true d answers ≠ .ok m := by
  have hsome : (d.rows.find? (fun r => !re_match_id (rowVal r idf))).isSome := by
    rw [List.find?_isSome]
    obtain ⟨r, hr, hmr⟩ := hbad
    exact ⟨r, hr, by simp [hmr]⟩
  obtain ⟨bad, hfind⟩ := Option.isSome_iff_exists.mp hsome
  have hmem : bad ∈ d.rows := List.mem_of_find?_eq_some hfind
  have hbad2 : re_match_id (rowVal bad idf) = false := by
    simpa using List.find?_some hfind
  have hload : load_survey_data true d answers = .error (.malformedRow bad) := by
    rw [load_survey_data_ok_idf d answers idf hidf]
    exact load_rows_error _ _ _ _ hfind
  refine ⟨bad, hmem, hbad2, hload, fun m hcon => ?_⟩
  rw [hload] at hcon
  exact Except.noConfusion hcon

/-- The closed input used to exercise `claim_C1_malformed_row_aborts`:
a two-row CSV whose second row has a 7-digit identifier. -/
theorem claim_C1_witness :
    ((get_projmemid_fieldname
        ⟨["id", "response"],
         [[("id", "12345678"), ("response", "yes")],
          [("id", "1234567"), ("response", "no")]]⟩
        (fun _ => "Y")).2 = .ok "id") ∧
    ∃ bad ∈ ([[("id", "12345678"), ("response", "yes")],
              [("id", "1234567"), ("response", "no")]] : List Row),
      re_match_id (rowVal bad "id") = false ∧
      load_survey_data true
        ⟨["id", "response"],
         [[("id", "12345678"), ("response", "yes")],
          [("id", "1234567"), ("response", "no")]]⟩
        (fun _ => "Y") = .error (.malformedRow bad) ∧
      ∀ m, load_survey_data true
        ⟨["id", "response"],
         [[("id", "12345678"), ("response", "yes")],
          [("id", "1234567"), ("response", "no")]]⟩
        (fun _ => "Y") ≠ .ok m :=
  ⟨by decide,
   claim_C1_malformed_row_aborts
     ⟨["id", "response"],
      [[("id", "12345678"), ("response", "yes")],
       [("id", "1234567"), ("response", "no")]]⟩
     (fun _ => "Y") "id" (by decide)
     ⟨[("id", "1234567"), ("response", "no")], by decide, by decide⟩⟩

/-- C2: if the header sniff passes, a column `idf` was confirmed as the
identifier column, and every row's value in that column matches the 8-digit
pattern, then the load succeeds with a mapping whose keys are pairwise
distinct (exactly one entry per distinct identifier) and which stores, for
each identifier, the LAST row in file order carrying it — duplicates
overwrite silently, no error is raised. -/
theorem claim_C2_last_row_wins (d : CsvData) (answers : String → String)
    (idf : String)
    (hidf : (get_projmemid_fieldname d answers).2 = .ok idf)
    (hall : ∀ r ∈ d.rows, re_match_id (rowVal r idf) = true) :
    ∃ m, load_survey_data true d answers = .ok m ∧
      (dkeys m).Nodup ∧ ∀ k, dget? m k = lastRowWith idf k d.rows := by
  refine ⟨d.rows.foldl (fun dd r => dinsert dd (rowVal r idf) r) [],
    ?_, ?_, ?_⟩
  · rw [load_survey_data_ok_idf d answers idf hidf]
    exact load_rows_ok _ _ _ hall
  · exact nodup_load_foldl _ _ _ (by simp [dkeys])
  · intro k
    rw [dget?_load_foldl]
    cases lastRowWith idf k d.rows <;> simp [dget?]

/-- The closed input used to exercise `claim_C2_last_row_wins`: a CSV in
which identifier 12345678 appears twice with different responses. -/
theorem claim_C2_witness :
    ∃ m, load_survey_data true
        ⟨["id", "response"],
         [[("id", "12345678"), ("response", "yes")],
          [("id", "87654321"), ("response", "no")],
          [("id", "12345678"), ("response", "maybe")]]⟩
        (fun _ => "yes") = .ok m ∧
      (dkeys m).Nodup ∧
      ∀ k, dget? m k = lastRowWith "id" k
        [[("id", "12345678"), ("response", "yes")],
         [("id", "87654321"), ("response", "no")],
         [("id", "12345678"), ("response", "maybe")]] :=
  claim_C2_last_row_wins _ _ "id" (by decide) (by decide)

/-- C4 counterexample: a CSV whose header names its first column with the
empty string (header line `",response"`), whose first-row value in that
column is eight digits, and an operator who confirms every prompt. The
first (and only) confirmed candidate is the empty-named column, yet
`get_projmemid_fieldname` raises the unable-to-determine error instead of
returning it: Python's `if id_fieldname:` is a truthiness test, and the
empty string is falsy. -/
theorem claim_C4_counterexample :
    (candidate_cols ["", "response"]
        [("", "12345678"), ("response", "x")]).find?
      (fun f => isYes ((fun _ : String => "Y") f)) = some "" ∧
    (get_projmemid_fieldname
        ⟨["", "response"], [[("", "12345678"), ("response", "x")]]⟩
        (fun _ => "Y")).2 = .error .unableToDetermine := by
  decide

/-- C4 (amended): with at least one data row present,
`get_projmemid_fieldname` prompts exactly for the candidate columns (those
whose first-row value matches the 8-digit pattern, in column order) up to
and including the first one the operator confirms with a case-insensitive
Y/YES, and asks no further prompts after that confirmation; it returns
that first confirmed candidate IF its name is nonempty, and raises
`unableToDetermine` (modelling "Unable to determine column with project
member ID") when no candidate is confirmed OR the confirmed column's name
is the empty string, which Python's `if id_fieldname:` truthiness test
treats like no confirmation. -/
theorem claim_C4_column_inference (d : CsvData) (answers : String → String)
    (firstrow : Row) (rest : List Row) (h : d.rows = firstrow :: rest) :
    get_projmemid_fieldname d answers =
      (spec_promptedCols (fun f => isYes (answers f))
         (candidate_cols d.fieldnames firstrow),
       match (candidate_cols d.fieldnames firstrow).find?
           (fun f => isYes (answers f)) with
       | some f =>
         if f = "" then .error .unableToDetermine else .ok f
       | none => .error .unableToDetermine) := by
  simp only [get_projmemid_fieldname, h]
  rw [scan_columns_eq]
  cases hf : (candidate_cols d.fieldnames firstrow).find?
      (fun f => isYes (answers f)) with
  | some f =>
    by_cases hemp : f = "" <;> simp [hemp]
  | none => simp

/-- The closed input used to exercise `claim_C4_column_inference`: three
columns, of which the first and third hold 8-digit first-row values; the
operator declines the first candidate and confirms the second. -/
theorem claim_C4_witness :
    get_projmemid_fieldname
      ⟨["a", "b", "c"],
       [[("a", "11111111"), ("b", "x"), ("c", "22222222")]]⟩
      (fun f => if f = "c" then "y" else "n") =
      (spec_promptedCols
         (fun f => isYes ((fun f => if f = "c" then "y" else "n") f))
         (candidate_cols ["a", "b", "c"]
           [("a", "11111111"), ("b", "x"), ("c", "22222222")]),
       match (candidate_cols ["a", "b", "c"]
             [("a", "11111111"), ("b", "x"), ("c", "22222222")]).find?
           (fun f => isYes ((fun f => if f = "c" then "y" else "n") f)) with
       | some f =>
         if f = "" then .error .unableToDetermine else .ok f
       | none => .error .unableToDetermine) :=
  claim_C4_column_inference _ _
    [("a", "11111111"), ("b", "x"), ("c", "22222222")] [] rfl

/-- C9: on a CSV that passed the header sniff but has no data rows,
`get_projmemid_fieldname` raises `StopIteration` from `next(reader)` before
any prompt is issued (the prompt list is empty), so `load_survey_data`
fails with that exception and not with the documented
`unableToDetermine` error. -/
theorem claim_C9_header_only_stopiteration (d : CsvData)
    (answers : String → String) (h : d.rows = []) :
    get_projmemid_fieldname d answers = ([], .error .stopIteration) ∧
    load_survey_data true d answers = .error .stopIteration ∧
    load_survey_data true d answers ≠ .error .unableToDetermine := by
  have h1 : get_projmemid_fieldname d answers = ([], .error .stopIteration) := by
    simp [get_projmemid_fieldname, h]
  have h2 : load_survey_data true d answers = .error .stopIteration := by
    simp only [load_survey_data, Bool.not_true, Bool.false_eq_true, if_false]
    rw [h1]
  exact ⟨h1, h2, by simp [h2]⟩

/-- The closed input used to exercise `claim_C9_header_only_stopiteration`:
a header-only CSV. -/
theorem claim_C9_witness :
    get_projmemid_fieldname ⟨["id", "response"], []⟩ (fun _ => "Y") =
      ([], .error .stopIteration) ∧
    load_survey_data true ⟨["id", "response"], []⟩ (fun _ => "Y") =
      .error .stopIteration ∧
    load_survey_data true ⟨["id", "response"], []⟩ (fun _ => "Y") ≠
      .error .unableToDetermine :=
  claim_C9_header_only_stopiteration _ _ rfl

/-- C10: every entry of a successfully loaded mapping has a key that
matches the 8-digit identifier pattern and that equals the stored row's own
value in the confirmed identifier column — the key is always consistent
with the row it indexes. -/
theorem claim_C10_key_row_consistency (d : CsvData)
    (answers : String → String) (idf : String) (m : Dict Row)
    (hidf : (get_projmemid_fieldname d answers).2 = .ok idf)
    (hok : load_survey_data true d answers = .ok m) :
    ∀ p ∈ m, re_match_id p.1 = true ∧ rowVal p.2 idf = p.1 := by
  rw [load_survey_data_ok_idf d answers idf hidf] at hok
  exact load_rows_inv idf d.rows [] m (by simp) hok

/-- The closed input used to exercise `claim_C10_key_row_consistency`, at
the single entry of the mapping loaded from `wCsv`. -/
theorem claim_C10_witness :
    re_match_id "12345678" = true ∧ rowVal wRow "id" = "12345678" :=
  claim_C10_key_row_consistency wCsv (fun _ => "Y") "id" wLoaded
    (by decide) (by decide) ("12345678", wRow) (by decide)

theorem mem_dkeys_dinsert {α : Type} (d : Dict α) (k : String) (v : α)
    (k2 : String) :
    k2 ∈ dkeys (dinsert d k v) ↔ k2 ∈ dkeys d ∨ k2 = k := by
  rw [dkeys_dinsert]
  by_cases h : k ∈ dkeys d
  · rw [if_pos h]
    exact ⟨Or.inl, fun h1 => h1.elim id (fun e => e ▸ h)⟩
  · rw [if_neg h]
    simp

theorem mem_dkeys_basename_foldl (l : List FileEntry) (acc : Dict FileEntry)
    (k : String) :
    k ∈ dkeys (l.foldl (fun d f => dinsert d f.basename f) acc) ↔
      k ∈ dkeys acc ∨ ∃ f ∈ l, f.basename = k := by
  induction l generalizing acc with
  | nil => simp
  | cons f fs ih =>
    simp only [List.foldl_cons]
    rw [ih, mem_dkeys_dinsert]
    constructor
    · rintro ((h | h) | h)
      · exact Or.inl h
      · exact Or.inr ⟨f, List.mem_cons_self f fs, h.symm⟩
      · obtain ⟨g, hg, hgk⟩ := h
        exact Or.inr ⟨g, List.mem_cons_of_mem _ hg, hgk⟩
    · rintro (h | ⟨g, hg, hgk⟩)
      · exact Or.inl (Or.inl h)
      · rcases List.mem_cons.mp hg with h1 | h1
        · exact Or.inl (Or.inr (h1 ▸ hgk.symm))
        · exact Or.inr ⟨g, h1, hgk⟩

theorem mem_curr_project_data (member_data : MemberData) (k : String) :
    dcontains (curr_project_data_of member_data) k = true ↔
      ∃ f ∈ member_data.data,
        f.source ∉ member_data.sources_shared ∧ f.basename = k := by
  rw [dcontains_iff, curr_project_data_of, mem_dkeys_basename_foldl]
  simp only [dkeys, List.map_nil, List.not_mem_nil, false_or, List.mem_filter,
    decide_eq_true_eq]
  constructor
  · rintro ⟨f, ⟨hf, hsrc⟩, hk⟩
    exact ⟨f, hf, hsrc, hk⟩
  · rintro ⟨f, hf, hsrc, hk⟩
    exact ⟨f, ⟨hf, hsrc⟩, hk⟩

theorem dget?_of_mem_dkeys {α : Type} (d : Dict α) (k : String)
    (h : k ∈ dkeys d) : ∃ v, dget? d k = some v := by
  induction d with
  | nil => simp [dkeys] at h
  | cons p rest ih =>
    obtain ⟨a, b⟩ := p
    simp only [dkeys, List.map_cons, List.mem_cons] at h
    by_cases hk : a = k
    · exact ⟨b, by simp [dget?, hk]⟩
    · obtain ⟨v, hv⟩ := ih (h.resolve_left (fun h1 => hk h1.symm))
      exact ⟨v, by simp [dget?, hk, hv]⟩

theorem netTarget_processParticipant (cfg : Config)
    (project_data : Dict MemberData) (loaded_data : Dict Row)
    (status : String → Nat) (q : String) (e : Event)
    (he : e ∈ processParticipant cfg project_data loaded_data status q) :
    netTarget e = none ∨ netTarget e = some q := by
  cases hq : dget? project_data q with
  | none =>
    simp only [processParticipant, hq, List.mem_singleton] at he
    subst he
    exact Or.inl rfl
  | some md =>
    by_cases hc : dcontains (curr_project_data_of md) cfg.filename = true
    · by_cases hs : status q = 201
      · simp [processParticipant, hq, hc, hs] at he
        rcases he with rfl | rfl | rfl | rfl | rfl <;> simp [netTarget]
      · simp [processParticipant, hq, hc, hs] at he
        rcases he with rfl | rfl | rfl | rfl | rfl <;> simp [netTarget]
    · by_cases hs : status q = 201
      · simp [processParticipant, hq, hc, hs] at he
        rcases he with rfl | rfl | rfl <;> simp [netTarget]
      · simp [processParticipant, hq, hc, hs] at he
        rcases he with rfl | rfl | rfl <;> simp [netTarget]

theorem uploadReq_processParticipant (cfg : Config)
    (project_data : Dict MemberData) (loaded_data : Dict Row)
    (status : String → Nat) (q p fn b mt : String)
    (he : Event.uploadReq p fn b mt ∈
      processParticipant cfg project_data loaded_data status q) :
    p = q ∧ fn = cfg.filename ∧
    b = jsonDumps ((dget? loaded_data q).getD []) ∧
    mt = jsonDumpsMeta (pySplit cfg.tags ' ') cfg.description := by
  cases hq : dget? project_data q with
  | none =>
    simp [processParticipant, hq] at he
  | some md =>
    by_cases hc : dcontains (curr_project_data_of md) cfg.filename = true
    · by_cases hs : status q = 201 <;>
        simp [processParticipant, hq, hc, hs] at he <;>
        simp [he]
    · by_cases hs : status q = 201 <;>
        simp [processParticipant, hq, hc, hs] at he <;>
        simp [he]

/-- C3: for a participant present in the listing, the loop computes the
participant's own files as the listing entries whose source is not among
the participant's shared sources (keyed by basename), and issues a delete
request for (participant, filename) strictly before the upload request
exactly when the configured filename is among those own files; when it is
absent, no delete request at all is issued for this participant. -/
theorem claim_C3_delete_precedes_upload (cfg : Config)
    (project_data : Dict MemberData) (loaded_data : Dict Row)
    (status : String → Nat) (projmemid : String) (md : MemberData)
    (h : dget? project_data projmemid = some md) :
    ((∃ f ∈ md.data, f.source ∉ md.sources_shared ∧
        f.basename = cfg.filename) ↔
      ∃ pre mid post b mt,
        processParticipant cfg project_data loaded_data status projmemid =
          pre ++ Event.deleteReq projmemid cfg.filename ::
            (mid ++ Event.uploadReq projmemid cfg.filename b mt :: post)) ∧
    ((¬∃ f ∈ md.data, f.source ∉ md.sources_shared ∧
        f.basename = cfg.filename) →
      ∀ p fn, Event.deleteReq p fn ∉
        processParticipant cfg project_data loaded_data status projmemid) := by
  have hcurr := mem_curr_project_data md cfg.filename
  by_cases hc : dcontains (curr_project_data_of md) cfg.filename = true
  · have hex := hcurr.mp hc
    refine ⟨⟨fun _ => ?_, fun _ => hex⟩, fun hne => absurd hex hne⟩
    refine ⟨[Event.logInfo
        ("Deleting current " ++ cfg.filename ++ " for " ++ projmemid)],
      [Event.logInfo ("Uploading " ++ cfg.filename ++ " for " ++ projmemid)],
      [if status projmemid = 201 then
         Event.logInfo ("Upload of " ++ cfg.filename ++ " for " ++
           projmemid ++ " complete.")
       else
         Event.logWarning ("Upload error of " ++ cfg.filename ++ " for " ++
           projmemid ++ "!")],
      jsonDumps ((dget? loaded_data projmemid).getD []),
      jsonDumpsMeta (pySplit cfg.tags ' ') cfg.description, ?_⟩
    simp [processParticipant, h, hc]
  · have hnex : ¬∃ f ∈ md.data, f.source ∉ md.sources_shared ∧
        f.basename = cfg.filename := fun hex => hc (hcurr.mpr hex)
    refine ⟨⟨fun hex => absurd hex hnex, ?_⟩, fun _ p fn hmem => ?_⟩
    · rintro ⟨pre, mid, post, b, mt, hdecomp⟩
      have hdel : Event.deleteReq projmemid cfg.filename ∈
          processParticipant cfg project_data loaded_data status projmemid := by
        rw [hdecomp]; simp
      by_cases hs : status projmemid = 201 <;>
        simp [processParticipant, h, hc, hs] at hdel
    · by_cases hs : status projmemid = 201 <;>
        simp [processParticipant, h, hc, hs] at hmem

/-- The closed input used to exercise `claim_C3_delete_precedes_upload`:
member 12345678 is listed and owns a `survey-data.json` file. -/
theorem claim_C3_witness :
    ((∃ f ∈ wMember.data, f.source ∉ wMember.sources_shared ∧
        f.basename = wCfg.filename) ↔
      ∃ pre mid post b mt,
        processParticipant wCfg wProj wLoaded (fun _ => 201) "12345678" =
          pre ++ Event.deleteReq "12345678" wCfg.filename ::
            (mid ++ Event.uploadReq "12345678" wCfg.filename b mt :: post)) ∧
    ((¬∃ f ∈ wMember.data, f.source ∉ wMember.sources_shared ∧
        f.basename = wCfg.filename) →
      ∀ p fn, Event.deleteReq p fn ∉
        processParticipant wCfg wProj wLoaded (fun _ => 201) "12345678") :=
  claim_C3_delete_precedes_upload wCfg wProj wLoaded (fun _ => 201)
    "12345678" wMember (by decide)

/-- C5: any fatal load-time error terminates the run before any network
call: the run result is `fatal` with that error, and the event trace is
empty — in particular no listing fetch, delete or upload request is ever
issued. -/
theorem claim_C5_fatal_before_network (cfg : Config) (hasHeader : Bool)
    (d : CsvData) (answers : String → String)
    (project_data : Dict MemberData) (status : String → Nat) (e : LoadError)
    (herr : load_survey_data hasHeader d answers = .error e) :
    surv_upload cfg hasHeader d answers project_data status = .fatal e ∧
    ∀ ev ∈ runEvents (surv_upload cfg hasHeader d answers project_data status),
      isNetworkEvent ev = false := by
  have h1 : surv_upload cfg hasHeader d answers project_data status =
      .fatal e := by
    simp [surv_upload, herr]
  refine ⟨h1, fun ev hev => ?_⟩
  rw [h1] at hev
  simp [runEvents] at hev

/-- The closed input used to exercise `claim_C5_fatal_before_network`: the
header sniff fails, so the load aborts with `noHeader`. -/
theorem claim_C5_witness :
    surv_upload wCfg false wCsv (fun _ => "Y") wProj (fun _ => 201) =
      .fatal .noHeader ∧
    ∀ ev ∈ runEvents
        (surv_upload wCfg false wCsv (fun _ => "Y") wProj (fun _ => 201)),
      isNetworkEvent ev = false :=
  claim_C5_fatal_before_network wCfg false wCsv (fun _ => "Y") wProj
    (fun _ => 201) .noHeader (by decide)

/-- C6: a loaded identifier absent from the remote listing is skipped with
the log line "Skipping '<id>', invalid member ID.": its loop iteration is
exactly that log event, the log line occurs in the run's trace, and no
network write addressed to that identifier occurs anywhere in the run
(the loop continues with the other identifiers). -/
theorem claim_C6_skip_unknown_member (cfg : Config) (hasHeader : Bool)
    (d : CsvData) (answers : String → String)
    (project_data : Dict MemberData) (status : String → Nat)
    (loaded_data : Dict Row) (projmemid : String)
    (hload : load_survey_data hasHeader d answers = .ok loaded_data)
    (hmem : projmemid ∈ dkeys loaded_data)
    (h : dget? project_data projmemid = none) :
    processParticipant cfg project_data loaded_data status projmemid =
      [.logInfo ("Skipping \x27" ++ projmemid ++ "\x27, invalid member ID.")] ∧
    Event.logInfo ("Skipping \x27" ++ projmemid ++ "\x27, invalid member ID.")
      ∈ runEvents (surv_upload cfg hasHeader d answers project_data status) ∧
    ∀ e ∈ runEvents (surv_upload cfg hasHeader d answers project_data status),
      netTarget e ≠ some projmemid := by
  have h1 : processParticipant cfg project_data loaded_data status projmemid =
      [.logInfo ("Skipping \x27" ++ projmemid ++ "\x27, invalid member ID.")] := by
    simp [processParticipant, h]
  have hrun : surv_upload cfg hasHeader d answers project_data status =
      .completed (Event.listingFetch ::
        (dkeys loaded_data).flatMap
          (processParticipant cfg project_data loaded_data status)) := by
    simp [surv_upload, hload]
  refine ⟨h1, ?_, ?_⟩
  · rw [hrun]
    simp only [runEvents]
    exact List.mem_cons_of_mem _
      (List.mem_flatMap.mpr
        ⟨projmemid, hmem, h1 ▸ List.mem_singleton_self _⟩)
  · intro e he
    rw [hrun] at he
    simp only [runEvents] at he
    rcases List.mem_cons.mp he with rfl | he2
    · simp [netTarget]
    · obtain ⟨q, hq, heq⟩ := List.mem_flatMap.mp he2
      rcases netTarget_processParticipant cfg project_data loaded_data
          status q e heq with h2 | h2
      · simp [h2]
      · rw [h2]
        intro hcon
        have hqp : q = projmemid := Option.some.inj hcon
        subst hqp
        rw [h1] at heq
        have he3 := List.mem_singleton.mp heq
        subst he3
        simp [netTarget] at h2

/-- The closed input used to exercise `claim_C6_skip_unknown_member`: the
loaded dataset has members 12345678 and 87654321, but the remote listing
lacks 87654321. -/
theorem claim_C6_witness :
    processParticipant wCfg wProj wLoaded2 (fun _ => 201) "87654321" =
      [.logInfo ("Skipping \x2787654321\x27, invalid member ID.")] ∧
    Event.logInfo ("Skipping \x2787654321\x27, invalid member ID.")
      ∈ runEvents (surv_upload wCfg true wCsv2 (fun _ => "Y") wProj
          (fun _ => 201)) ∧
    ∀ e ∈ runEvents (surv_upload wCfg true wCsv2 (fun _ => "Y") wProj
        (fun _ => 201)),
      netTarget e ≠ some "87654321" :=
  claim_C6_skip_unknown_member wCfg true wCsv2 (fun _ => "Y") wProj
    (fun _ => 201) wLoaded2 "87654321" (by decide) (by decide) (by decide)

/-- C7: every processed participant's iteration ends with exactly one
upload request followed by exactly one outcome log: an info line when the
HTTP status is 201, and otherwise a warning line naming the filename and
the participant. The upload is never retried (the iteration contains
exactly one upload request), no exception is raised (the iteration is a
plain finite event list), and the loop proceeds to the next participant. -/
theorem claim_C7_upload_status_logging (cfg : Config)
    (project_data : Dict MemberData) (loaded_data : Dict Row)
    (status : String → Nat) (projmemid : String) (md : MemberData)
    (h : dget? project_data projmemid = some md) :
    (∃ pre b mt,
      processParticipant cfg project_data loaded_data status projmemid =
        pre ++ [Event.uploadReq projmemid cfg.filename b mt,
          if status projmemid = 201 then
            Event.logInfo ("Upload of " ++ cfg.filename ++ " for " ++
              projmemid ++ " complete.")
          else
            Event.logWarning ("Upload error of " ++ cfg.filename ++ " for " ++
              projmemid ++ "!")]) ∧
    (processParticipant cfg project_data loaded_data status
        projmemid).countP isUploadReq = 1 := by
  constructor
  · by_cases hc : dcontains (curr_project_data_of md) cfg.filename = true
    · exact ⟨[Event.logInfo
          ("Deleting current " ++ cfg.filename ++ " for " ++ projmemid),
        Event.deleteReq projmemid cfg.filename,
        Event.logInfo ("Uploading " ++ cfg.filename ++ " for " ++ projmemid)],
        jsonDumps ((dget? loaded_data projmemid).getD []),
        jsonDumpsMeta (pySplit cfg.tags ' ') cfg.description,
        by simp [processParticipant, h, hc]⟩
    · exact ⟨[Event.logInfo
          ("Uploading " ++ cfg.filename ++ " for " ++ projmemid)],
        jsonDumps ((dget? loaded_data projmemid).getD []),
        jsonDumpsMeta (pySplit cfg.tags ' ') cfg.description,
        by simp [processParticipant, h, hc]⟩
  · by_cases hc : dcontains (curr_project_data_of md) cfg.filename = true <;>
      by_cases hs : status projmemid = 201 <;>
        simp [processParticipant, h, hc, hs, isUploadReq, List.countP_cons]

/-- The closed input used to exercise `claim_C7_upload_status_logging`,
with a non-201 status so the warning branch is the one taken. -/
theorem claim_C7_witness :
    (∃ pre b mt,
      processParticipant wCfg wProj wLoaded (fun _ => 500) "12345678" =
        pre ++ [Event.uploadReq "12345678" wCfg.filename b mt,
          if (fun _ : String => 500) "12345678" = 201 then
            Event.logInfo ("Upload of " ++ wCfg.filename ++ " for " ++
              "12345678" ++ " complete.")
          else
            Event.logWarning ("Upload error of " ++ wCfg.filename ++ " for " ++
              "12345678" ++ "!")]) ∧
    (processParticipant wCfg wProj wLoaded (fun _ => 500)
        "12345678").countP isUploadReq = 1 :=
  claim_C7_upload_status_logging wCfg wProj wLoaded (fun _ => 500)
    "12345678" wMember (by decide)

/-- C8: every upload request in a completed run posts, as the file body,
the JSON serialization of the loaded row of the participant it addresses,
under the configured filename, with metadata whose tags are the configured
tags string split on single spaces and whose description is the configured
description — the metadata term is the same for every upload of the run
(it does not depend on the participant). -/
theorem claim_C8_upload_payload (cfg : Config) (hasHeader : Bool)
    (d : CsvData) (answers : String → String)
    (project_data : Dict MemberData) (status : String → Nat)
    (loaded_data : Dict Row) (evs : List Event)
    (hload : load_survey_data hasHeader d answers = .ok loaded_data)
    (hrun : surv_upload cfg hasHeader d answers project_data status =
      .completed evs) :
    ∀ p fn b mt, Event.uploadReq p fn b mt ∈ evs →
      fn = cfg.filename ∧
      (∃ row, dget? loaded_data p = some row ∧ b = jsonDumps row) ∧
      mt = jsonDumpsMeta (pySplit cfg.tags ' ') cfg.description := by
  have hevs : evs = Event.listingFetch ::
      (dkeys loaded_data).flatMap
        (processParticipant cfg project_data loaded_data status) := by
    simp only [surv_upload, hload] at hrun
    exact (RunResult.completed.inj hrun).symm
  intro p fn b mt hmem
  rw [hevs] at hmem
  rcases List.mem_cons.mp hmem with hfe | hmem2
  · exact Event.noConfusion hfe
  · obtain ⟨q, hq, he⟩ := List.mem_flatMap.mp hmem2
    obtain ⟨hpq, hfn, hb, hmt⟩ :=
      uploadReq_processParticipant cfg project_data loaded_data status
        q p fn b mt he
    subst hpq
    obtain ⟨row, hrow⟩ := dget?_of_mem_dkeys loaded_data p hq
    exact ⟨hfn, ⟨row, hrow, by simp [hb, hrow]⟩, hmt⟩

/-- The closed input used to exercise `claim_C8_upload_payload`: the
upload event of the one-member run over `wCsv`. -/
theorem claim_C8_witness :
    "survey-data.json" = wCfg.filename ∧
    (∃ row, dget? wLoaded "12345678" = some row ∧
      jsonDumps wRow = jsonDumps row) ∧
    jsonDumpsMeta (pySplit wCfg.tags ' ') wCfg.description =
      jsonDumpsMeta (pySplit wCfg.tags ' ') wCfg.description :=
  claim_C8_upload_payload wCfg true wCsv (fun _ => "Y") wProj (fun _ => 201)
    wLoaded
    (Event.listingFetch :: (dkeys wLoaded).flatMap
      (processParticipant wCfg wProj wLoaded (fun _ => 201)))
    (by decide) rfl "12345678" "survey-data.json" (jsonDumps wRow)
    (jsonDumpsMeta (pySplit wCfg.tags ' ') wCfg.description) (by decide)
